import Mathlib

/-
Shallow embedding of the student grade analyzer (src/lecture_3/main.py).

Python strings are modelled as lists of Unicode codepoints (List Nat),
Python floats as exact rationals (ℚ).  Interactive loops are modelled by
passing the finite list of raw input lines a session consumes.
-/

namespace GradeAnalyzer

/-- ASCII uppercase letter, as Python `isupper` restricted to ASCII. -/
def isUpperC (c : Nat) : Bool := decide (65 ≤ c ∧ c ≤ 90)

/-- ASCII lowercase letter, as Python `islower` restricted to ASCII. -/
def isLowerC (c : Nat) : Bool := decide (97 ≤ c ∧ c ≤ 122)

/-- Alphabetic character, as Python `str.isalpha` restricted to ASCII. -/
def isAlphaC (c : Nat) : Bool :=
  decide ((65 ≤ c ∧ c ≤ 90) ∨ (97 ≤ c ∧ c ≤ 122))

/-- Whitespace, as Python `str.isspace` restricted to codepoints below 256. -/
def isSpaceC (c : Nat) : Bool :=
  decide ((9 ≤ c ∧ c ≤ 13) ∨ c = 32 ∨ (28 ≤ c ∧ c ≤ 31) ∨ c = 133)

/-- Lowercasing one character, as Python `str.lower` on ASCII. -/
def toLowerC (c : Nat) : Nat := if isUpperC c then c + 32 else c

/-- Uppercasing one character, as Python `str.upper` on ASCII. -/
def toUpperC (c : Nat) : Nat := if isLowerC c then c - 32 else c

/-- A Lean string literal as a list of codepoints, for readable test data. -/
def strCodes (s : String) : List Nat := s.data.map Char.toNat

/-- Python `str.split()` with no argument: words separated by whitespace
runs, leading/trailing whitespace dropped, no empty words. -/
def pySplit (s : List Nat) : List (List Nat) :=
  (s.splitOnP (fun c => isSpaceC c)).filter (fun w => !w.isEmpty)

/-- Python `' '.join(words)`: words interleaved with a single space (32). -/
def joinSp : List (List Nat) → List Nat
  | [] => []
  | [w] => w
  | w :: ws => w ++ 32 :: joinSp ws

/-- Helper for `pyTitle`: the Boolean records whether the previous
character was cased (for ASCII: alphabetic). -/
def titleAux : Bool → List Nat → List Nat
  | _, [] => []
  | prevCased, c :: rest =>
    (if isAlphaC c then (if prevCased then toLowerC c else toUpperC c) else c)
      :: titleAux (isAlphaC c) rest

/-- Python `str.title()` restricted to ASCII: uppercase every alphabetic
character that follows a non-alphabetic one, lowercase the rest. -/
def pyTitle (s : List Nat) : List Nat := titleAux false s

/-- The name normalization performed by `check_input` in main.py line 37:
`' '.join(raw.split()).title()`. -/
def normalizeName (raw : List Nat) : List Nat := pyTitle (joinSp (pySplit raw))

/-- Characters allowed in a normalized name (main.py lines 38-39):
alphabetic, whitespace, hyphen (45) or apostrophe (39). -/
def okChar (c : Nat) : Bool := isAlphaC c || isSpaceC c || c == 45 || c == 39

/-- `check_input` from main.py lines 31-42, as a function of the raw input
line: `some` of the normalized name when accepted, `none` when rejected. -/
def check_input (raw : List Nat) : Option (List Nat) :=
  let name := normalizeName raw
  if name.isEmpty || !(name.all okChar) then none else some name

/-- A student record: the `{"name": ..., "grades": ...}` dictionary of
main.py line 8. -/
structure Student where
  name : List Nat
  grades : List Int
deriving DecidableEq

/-- `find_student` from main.py lines 18-28: first record with the given
name, scanning in insertion order. -/
def find_student (roster : List Student) (name : List Nat) : Option Student :=
  roster.find? (fun s => s.name == name)

/-- Outcome of one attempt of the `add_student` loop body. -/
inductive AddOutcome where
  | invalidName
  | duplicateName
  | added
deriving DecidableEq

/-- One iteration of the `add_student` loop (main.py lines 55-64) on one
raw input line: outcome together with the resulting roster. -/
def add_student_step (roster : List Student) (raw : List Nat) :
    AddOutcome × List Student :=
  match check_input raw with
  | none => (.invalidName, roster)
  | some name =>
    if (find_student roster name).isSome then (.duplicateName, roster)
    else (.added, roster ++ [{ name := name, grades := [] }])

/-- `add_student` from main.py lines 45-64 as a function of the finite
list of raw input lines the loop consumes: invalid or duplicate names are
skipped (the loop re-prompts), the first accepted name is appended. -/
def add_student : List Student → List (List Nat) → List Student
  | roster, [] => roster
  | roster, raw :: rest =>
    match add_student_step roster raw with
    | (.added, r) => r
    | (_, _) => add_student roster rest

example : check_input (strCodes "  aNN   sMith ") = some (strCodes "Ann Smith") := by decide
example : check_input (strCodes "an2n") = none := by decide
example : check_input (strCodes "   ") = none := by decide
example : normalizeName (strCodes "ann-marie") = strCodes "Ann-Marie" := by decide

/-- ASCII decimal digit. -/
def isDigitC (c : Nat) : Bool := decide (48 ≤ c ∧ c ≤ 57)

/-- Helper for `digRun`: remaining characters after at least one digit has
been read into `acc`; a single underscore (95) may stand between digits. -/
def digAux (acc : Nat) : List Nat → Option Nat
  | [] => some acc
  | c :: rest =>
    if isDigitC c then digAux (acc * 10 + (c - 48)) rest
    else if c == 95 then
      match rest with
      | [] => none
      | d :: rest2 =>
        if isDigitC d then digAux (acc * 10 + (d - 48)) rest2 else none
    else none

/-- A nonempty digit run (underscores allowed between digits), as accepted
by the Python `int` constructor after sign and whitespace handling. -/
def digRun : List Nat → Option Nat
  | [] => none
  | c :: rest => if isDigitC c then digAux (c - 48) rest else none

/-- Strip leading and trailing whitespace. -/
def stripWs (s : List Nat) : List Nat :=
  ((s.dropWhile (fun c => isSpaceC c)).reverse.dropWhile (fun c => isSpaceC c)).reverse

/-- Python `int(s)` on a string argument: optional surrounding whitespace,
optional sign, then a digit run; `none` models the `ValueError`. -/
def pyInt (s : List Nat) : Option Int :=
  match stripWs s with
  | 43 :: rest => (digRun rest).map (fun n => (n : Int))
  | 45 :: rest => (digRun rest).map (fun n => -(n : Int))
  | t => (digRun t).map (fun n => (n : Int))

/-- Result of grade-input classification, the `int | str | None` of
`valid_input` as a tagged variant. -/
inductive GradeResult where
  | done
  | value (v : Int)
  | invalid
deriving DecidableEq

/-- `valid_input` from main.py lines 67-82: the sentinel test
`input_grade.lower() == "done"`, then `int` parsing with the range check
`0 <= value <= 100`. -/
def valid_input (s : List Nat) : GradeResult :=
  if s.map toLowerC = strCodes "done" then .done
  else
    match pyInt s with
    | some v => if 0 ≤ v ∧ v ≤ 100 then .value v else .invalid
    | none => .invalid

example : valid_input (strCodes "100") = .value 100 := by decide
example : valid_input (strCodes "0") = .value 0 := by decide
example : valid_input (strCodes "101") = .invalid := by decide
example : valid_input (strCodes "-1") = .invalid := by decide
example : valid_input (strCodes "abc") = .invalid := by decide
example : valid_input (strCodes "DONE") = .done := by decide
example : valid_input (strCodes " 42 ") = .value 42 := by decide

/-- Grade-entry loop body (main.py lines 103-111): fold the raw grade
input lines into the grade list, appending valid values, skipping invalid
ones, stopping at the sentinel. -/
def processGrades : List Int → List (List Nat) → List Int
  | grades, [] => grades
  | grades, i :: rest =>
    match valid_input i with
    | .done => grades
    | .value v => processGrades (grades ++ [v]) rest
    | .invalid => processGrades grades rest

/-- Append grades to the first record with the given name, modelling the
in-place mutation of the dictionary returned by `find_student`. -/
def addGradesTo (roster : List Student) (name : List Nat)
    (inputs : List (List Nat)) : List Student :=
  match roster with
  | [] => []
  | s :: rest =>
    if s.name = name then { s with grades := processGrades s.grades inputs } :: rest
    else s :: addGradesTo rest name inputs

/-- `add_grades` from main.py lines 85-112 as a function of the raw name
attempts and the raw grade lines: invalid names re-prompt, an unknown name
returns to the menu with the roster unchanged, a found student receives
the processed grades. -/
def add_grades : List Student → List (List Nat) → List (List Nat) → List Student
  | roster, [], _ => roster
  | roster, raw :: rest, gradeInputs =>
    match check_input raw with
    | none => add_grades roster rest gradeInputs
    | some name =>
      if (find_student roster name).isSome then addGradesTo roster name gradeInputs
      else roster

/-- Exact arithmetic mean of a grade list (denominator 0 gives 0 in ℚ,
but every use is guarded by a nonemptiness test, as in the source). -/
def avgQ (gs : List Int) : ℚ := (gs.sum : ℚ) / (gs.length : ℚ)

/-- Round a rational to the nearest integer, ties to even: the mode of
Python `round`. -/
def roundHalfEven (x : ℚ) : ℤ :=
  if x - ⌊x⌋ < 1/2 then ⌊x⌋
  else if 1/2 < x - ⌊x⌋ then ⌊x⌋ + 1
  else if ⌊x⌋ % 2 = 0 then ⌊x⌋ else ⌊x⌋ + 1

/-- Python `round(x, 1)` on the exact-rational model. -/
def round1 (x : ℚ) : ℚ := (roundHalfEven (10 * x) : ℚ) / 10

/-- Exact average of a student, the key function of main.py lines 167-168. -/
def avgOf (s : Student) : ℚ := avgQ s.grades

/-- Decimal digits of a natural number as codepoints, by repeated
division; the first argument is fuel, always at least the number itself. -/
def numCodesAux : Nat → Nat → List Nat → List Nat
  | 0, _, acc => acc
  | fuel + 1, n, acc =>
    if n = 0 then acc else numCodesAux fuel (n / 10) ((n % 10 + 48) :: acc)

/-- Decimal rendering of a natural number as codepoints. -/
def numCodes (n : Nat) : List Nat := if n = 0 then [48] else numCodesAux n n []

/-- Rendering of a nonnegative multiple of 1/10 the way Python prints the
corresponding float: integer part, a dot, one tenths digit. -/
def fmtTenths (x : ℚ) : List Nat :=
  let k := (⌊10 * x⌋).toNat
  numCodes (k / 10) ++ 46 :: numCodes (k % 10)

example : fmtTenths (95 : ℚ) = strCodes "95.0" := by
  norm_num [fmtTenths]
  decide
example : fmtTenths (round1 (191 / 2 : ℚ)) = strCodes "95.5" := by
  norm_num [fmtTenths, round1, roundHalfEven]
  decide
example : round1 (1996 / 21 : ℚ) = (95 : ℚ) := by
  norm_num [round1, roundHalfEven]

/-- Per-student average as printed by `show_report` (main.py lines
130-136): `none` models the caught `ZeroDivisionError` for an empty grade
list, otherwise the mean rounded to one decimal. -/
def perStudentAverage (gs : List Int) : Option ℚ :=
  if gs.length = 0 then none else some (round1 (avgQ gs))

/-- The report line printed for one student (main.py lines 132 and 136). -/
def studentLine (s : Student) : List Nat :=
  match perStudentAverage s.grades with
  | some a => s.name ++ 39 :: strCodes "s average grade is " ++ fmtTenths a ++ [46]
  | none => s.name ++ 39 :: strCodes "s average grade is N/A."

/-- The `averages` list collected by the `show_report` loop: the rounded
average of every student that has at least one grade, in roster order. -/
def gradedAverages (roster : List Student) : List ℚ :=
  (roster.filter (fun s => !s.grades.isEmpty)).map (fun s => round1 (avgOf s))

/-- The summary block of `show_report` (main.py lines 138-148). -/
def summaryLines (roster : List Student) : List (List Nat) :=
  match gradedAverages roster with
  | [] => [strCodes "No grades available for summary."]
  | a :: rest =>
    [strCodes "-------------------------",
     strCodes "Max average: " ++ fmtTenths (round1 (rest.foldl max a)),
     strCodes "Min average: " ++ fmtTenths (round1 (rest.foldl min a)),
     strCodes "Overall average: " ++
       fmtTenths (round1 ((a :: rest).sum / ((a :: rest).length : ℚ)))]

/-- `show_report` from main.py lines 115-148: the full list of printed
lines. -/
def show_report (roster : List Student) : List (List Nat) :=
  if roster.isEmpty then [strCodes "No students available."]
  else
    strCodes "-----Student Report-----" ::
      (roster.map studentLine ++ summaryLines roster)

/-- Python `max(x :: xs, key)`: scan left to right, replace the current
best only on a strictly greater key, so the first maximum wins. -/
def pyMax1 (key : Student → ℚ) : Student → List Student → Student
  | x, [] => x
  | x, y :: ys => pyMax1 key (if key x < key y then y else x) ys

/-- The student selected by `find_top_performer` (main.py lines 165-169),
when one exists. -/
def topPerformer (roster : List Student) : Option Student :=
  if roster.isEmpty then none
  else
    match roster.filter (fun s => !s.grades.isEmpty) with
    | [] => none
    | x :: xs => some (pyMax1 avgOf x xs)

/-- `find_top_performer` from main.py lines 151-176: the printed line. -/
def find_top_performer (roster : List Student) : List Nat :=
  if roster.isEmpty then strCodes "No students available."
  else
    match roster.filter (fun s => !s.grades.isEmpty) with
    | [] => strCodes "No grades available"
    | x :: xs =>
      let top := pyMax1 avgOf x xs
      strCodes "The student with the highest average is " ++ top.name ++
        strCodes " with a grade of " ++ fmtTenths (round1 (avgOf top))

example :
    topPerformer [{ name := strCodes "Ann", grades := [90, 100] },
                  { name := strCodes "Bo", grades := [95, 95] }] =
      some { name := strCodes "Ann", grades := [90, 100] } := by
  norm_num [topPerformer, pyMax1, avgOf, avgQ, List.filter]

example :
    show_report [{ name := strCodes "Ann", grades := [90, 100] },
                 { name := strCodes "Bo", grades := [] }] =
      [strCodes "-----Student Report-----",
       strCodes "Ann" ++ 39 :: strCodes "s average grade is 95.0.",
       strCodes "Bo" ++ 39 :: strCodes "s average grade is N/A.",
       strCodes "-------------------------",
       strCodes "Max average: 95.0",
       strCodes "Min average: 95.0",
       strCodes "Overall average: 95.0"] := by
  norm_num [show_report, studentLine, perStudentAverage, summaryLines,
    gradedAverages, avgOf, avgQ, round1, roundHalfEven, fmtTenths, List.filter]
  decide

/-- The further input lines one dispatched menu operation may consume:
name attempts for options 1 and 2, grade lines for option 2. -/
structure OpInputs where
  nameAttempts : List (List Nat)
  gradeEntries : List (List Nat)
deriving DecidableEq

/-- `menu` from main.py lines 185-200: the roster after dispatching a
parsed choice.  Options 3 and 4 only print, option 5 only prints the exit
message; none of them touches the roster. -/
def menu (roster : List Student) (select : Int) (inp : OpInputs) : List Student :=
  if select = 1 then add_student roster inp.nameAttempts
  else if select = 2 then add_grades roster inp.nameAttempts inp.gradeEntries
  else roster

/-- State of the main loop after one iteration. -/
inductive MenuOutcome where
  | awaiting (roster : List Student)
  | terminated (roster : List Student)
deriving DecidableEq

/-- One iteration of the module-level main loop (main.py lines 206-220) on
one raw choice line: parse with `int`, re-prompt on a `ValueError` or an
out-of-range value, otherwise dispatch and exit exactly on choice 5. -/
def menuStep (roster : List Student) (rawChoice : List Nat) (inp : OpInputs) :
    MenuOutcome :=
  match pyInt rawChoice with
  | none => .awaiting roster
  | some choice =>
    if choice > 5 ∨ choice < 1 then .awaiting roster
    else if choice = 5 then .terminated (menu roster choice inp)
    else .awaiting (menu roster choice inp)

/-- A menu operation together with the input lines it consumes. -/
inductive Op where
  | addStudentOp (raws : List (List Nat))
  | addGradesOp (names : List (List Nat)) (grades : List (List Nat))
  | showReportOp
  | topPerformerOp

/-- The roster produced by running one operation; the two reporting
operations only read the roster. -/
def applyOp (roster : List Student) : Op → List Student
  | .addStudentOp raws => add_student roster raws
  | .addGradesOp names grades => add_grades roster names grades
  | .showReportOp => roster
  | .topPerformerOp => roster

/-- Rosters reachable from the empty initial roster (main.py line 8) by
the program operations. -/
inductive Reachable : List Student → Prop
  | init : Reachable []
  | step (op : Op) {r : List Student} : Reachable r → Reachable (applyOp r op)

/-- Every grade of every record lies in the validated range. -/
def GradesOK (roster : List Student) : Prop :=
  ∀ s ∈ roster, ∀ g ∈ s.grades, 0 ≤ g ∧ g ≤ 100

/-- C2: for every student record, the per-student average equals the
arithmetic mean of the grades rounded to one decimal place; an empty grade
sequence yields the N/A state rather than an error, and the report still
emits a line for every remaining student. -/
theorem C2_per_student_average :
    (∀ gs : List Int, gs ≠ [] →
      perStudentAverage gs = some (round1 ((gs.sum : ℚ) / (gs.length : ℚ)))) ∧
    perStudentAverage ([] : List Int) = none ∧
    (∀ (r1 r2 : List Student) (s : Student), s.grades = [] →
      (r1 ++ s :: r2).map studentLine =
        r1.map studentLine ++
          (s.name ++ 39 :: strCodes "s average grade is N/A.") ::
            r2.map studentLine) := by
  refine ⟨fun gs h => ?_, rfl, fun r1 r2 s hs => ?_⟩
  · rw [perStudentAverage, if_neg (by simpa using h)]
    rfl
  · simp [studentLine, hs, perStudentAverage]

/-- Witness for C2 at the record with grades `[90, 100]` and an empty
record in mid-roster position. -/
theorem C2_per_student_average_witness :
    perStudentAverage [90, 100] = some 95 ∧
    perStudentAverage ([] : List Int) = none ∧
    (([{ name := strCodes "Ann", grades := [90, 100] }] : List Student) ++
        ({ name := strCodes "Bo", grades := [] } : Student) ::
          [{ name := strCodes "Cy", grades := [80] }]).map studentLine =
      [studentLine { name := strCodes "Ann", grades := [90, 100] },
       strCodes "Bo" ++ 39 :: strCodes "s average grade is N/A.",
       studentLine { name := strCodes "Cy", grades := [80] }] := by
  refine ⟨?_, C2_per_student_average.2.1, ?_⟩
  · rw [C2_per_student_average.1 [90, 100] (by decide)]
    norm_num [round1, roundHalfEven]
  · rw [C2_per_student_average.2.2 [{ name := strCodes "Ann", grades := [90, 100] }]
      [{ name := strCodes "Cy", grades := [80] }]
      { name := strCodes "Bo", grades := [] } rfl]
    rfl

/-- C6: the grade validator classifies every input string as exactly one
of: sentinel (case-insensitive "done"), valid grade (parsed integer in
[0,100]), or invalid; with the particular classifications of "101", "-1",
"abc", "100", "0", "done", "DONE" and "Done". -/
theorem C6_grade_validator_classification :
    ∀ s : List Nat,
      (valid_input s = .done ↔ s.map toLowerC = strCodes "done") ∧
      (∀ v : Int, valid_input s = .value v ↔
        s.map toLowerC ≠ strCodes "done" ∧ pyInt s = some v ∧ 0 ≤ v ∧ v ≤ 100) ∧
      (valid_input s = .invalid ↔ (s.map toLowerC ≠ strCodes "done" ∧
        ∀ v : Int, pyInt s = some v → ¬(0 ≤ v ∧ v ≤ 100))) ∧
      valid_input (strCodes "101") = .invalid ∧
      valid_input (strCodes "-1") = .invalid ∧
      valid_input (strCodes "abc") = .invalid ∧
      valid_input (strCodes "100") = .value 100 ∧
      valid_input (strCodes "0") = .value 0 ∧
      valid_input (strCodes "done") = .done ∧
      valid_input (strCodes "DONE") = .done ∧
      valid_input (strCodes "Done") = .done := by
  intro s
  refine ⟨?_, fun v => ?_, ?_, by decide, by decide, by decide, by decide,
    by decide, by decide, by decide, by decide⟩ <;>
  · unfold valid_input
    by_cases h : List.map toLowerC s = strCodes "done"
    · simp [h]
    · rw [if_neg h]
      cases hp : pyInt s with
      | none => simp [h, hp]
      | some w =>
        by_cases hr : 0 ≤ w ∧ w ≤ 100
        · simp [h, hp, hr]
          try omega
        · simp [h, hp, hr]
          try omega

/-- Witness for C6: the sentinel characterization applied at the concrete
input "Done". -/
theorem C6_grade_validator_classification_witness :
    valid_input (strCodes "Done") = GradeResult.done ∧
    valid_input (strCodes "17") = GradeResult.value 17 :=
  ⟨(C6_grade_validator_classification (strCodes "Done")).1.mpr (by decide),
   ((C6_grade_validator_classification (strCodes "17")).2.1 17).mpr
     (by refine ⟨by decide, by decide, by decide, by decide⟩)⟩

/-- C8: invalid menu input (unparseable or outside [1,5]) leaves the
roster unchanged and returns to the prompt; exactly the choice 5 reaches
the terminated state, with the roster unchanged. -/
theorem C8_menu_loop_termination :
    ∀ (roster : List Student) (raw : List Nat) (inp : OpInputs),
      (pyInt raw = none → menuStep roster raw inp = .awaiting roster) ∧
      (∀ c : Int, pyInt raw = some c → (c < 1 ∨ 5 < c) →
        menuStep roster raw inp = .awaiting roster) ∧
      (pyInt raw = some 5 → menuStep roster raw inp = .terminated roster) ∧
      (∀ r : List Student, menuStep roster raw inp = .terminated r →
        r = roster ∧ pyInt raw = some 5) := by
  intro roster raw inp
  have hmenu5 : menu roster 5 inp = roster := by simp [menu]
  refine ⟨fun h => by simp [menuStep, h], fun c hc hrange => ?_, fun h => ?_, fun r h => ?_⟩
  · rw [menuStep, hc]
    simp only [if_pos (by omega : c > 5 ∨ c < 1)]
  · rw [menuStep, h]
    simp [hmenu5]
  · cases hp : pyInt raw with
    | none =>
      simp only [menuStep, hp] at h
      exact absurd h (by simp)
    | some c =>
      simp only [menuStep, hp] at h
      by_cases h5 : c > 5 ∨ c < 1
      · rw [if_pos h5] at h
        exact absurd h (by simp)
      · rw [if_neg h5] at h
        by_cases hc5 : c = 5
        · subst hc5
          rw [if_pos rfl, hmenu5] at h
          cases h
          exact ⟨rfl, rfl⟩
        · rw [if_neg hc5] at h
          exact absurd h (by simp)

/-- Witness for C8 at the concrete choices "abc", "6", "0" and "5" on the
empty roster. -/
theorem C8_menu_loop_termination_witness :
    menuStep [] (strCodes "abc") ⟨[], []⟩ = .awaiting [] ∧
    menuStep [] (strCodes "6") ⟨[], []⟩ = .awaiting [] ∧
    menuStep [] (strCodes "0") ⟨[], []⟩ = .awaiting [] ∧
    menuStep [] (strCodes "5") ⟨[], []⟩ = .terminated [] :=
  ⟨(C8_menu_loop_termination [] (strCodes "abc") ⟨[], []⟩).1 (by decide),
   (C8_menu_loop_termination [] (strCodes "6") ⟨[], []⟩).2.1 6 (by decide) (by decide),
   (C8_menu_loop_termination [] (strCodes "0") ⟨[], []⟩).2.1 0 (by decide) (by decide),
   (C8_menu_loop_termination [] (strCodes "5") ⟨[], []⟩).2.2.1 (by decide)⟩

/-- C9: the top-performer selection compares exact (unrounded) averages:
between two graded students whose averages differ but round to the same
tenth, the one with the greater exact average wins in either insertion
order. -/
theorem C9_top_performer_exact_comparison :
    ∀ a b : Student, a.grades ≠ [] → b.grades ≠ [] →
      round1 (avgOf a) = round1 (avgOf b) → avgOf a < avgOf b →
      topPerformer [a, b] = some b ∧ topPerformer [b, a] = some b := by
  intro a b ha hb _ hlt
  have ha' : (!a.grades.isEmpty) = true := by simpa using ha
  have hb' : (!b.grades.isEmpty) = true := by simpa using hb
  constructor
  · simp only [topPerformer, List.filter, ha', hb', List.isEmpty_cons]
    simp [pyMax1, hlt]
  · simp only [topPerformer, List.filter, ha', hb', List.isEmpty_cons]
    simp [pyMax1, not_lt_of_gt hlt]

/-- Witness for C9: grades `[95]` (average exactly 95) against twenty 95s
and one 96 (average 1996/21, which also rounds to 95.0). -/
theorem C9_top_performer_exact_comparison_witness :
    topPerformer [{ name := strCodes "Ann", grades := [95] },
                  { name := strCodes "Bo", grades :=
                    [95, 95, 95, 95, 95, 95, 95, 95, 95, 95,
                     95, 95, 95, 95, 95, 95, 95, 95, 95, 95, 96] }] =
      some { name := strCodes "Bo", grades :=
              [95, 95, 95, 95, 95, 95, 95, 95, 95, 95,
               95, 95, 95, 95, 95, 95, 95, 95, 95, 95, 96] } ∧
    topPerformer [{ name := strCodes "Bo", grades :=
                    [95, 95, 95, 95, 95, 95, 95, 95, 95, 95,
                     95, 95, 95, 95, 95, 95, 95, 95, 95, 95, 96] },
                  { name := strCodes "Ann", grades := [95] }] =
      some { name := strCodes "Bo", grades :=
              [95, 95, 95, 95, 95, 95, 95, 95, 95, 95,
               95, 95, 95, 95, 95, 95, 95, 95, 95, 95, 96] } :=
  C9_top_performer_exact_comparison
    { name := strCodes "Ann", grades := [95] }
    { name := strCodes "Bo", grades :=
      [95, 95, 95, 95, 95, 95, 95, 95, 95, 95,
       95, 95, 95, 95, 95, 95, 95, 95, 95, 95, 96] }
    (by decide) (by decide)
    (by norm_num [round1, roundHalfEven, avgOf, avgQ])
    (by norm_num [avgOf, avgQ])

/-- Helper: the successful top-performer line starts with codepoint 84
(uppercase T), whatever student was selected. -/
theorem find_top_performer_success_head (x : Student) (xs r : List Student)
    (hne : r.isEmpty = false)
    (hf : r.filter (fun s => !s.grades.isEmpty) = x :: xs) :
    ∃ u : List Nat, find_top_performer r = 84 :: u := by
  rw [find_top_performer, if_neg (by simp [hne]), hf]
  exact ⟨_, rfl⟩

/-- C10: the two unavailable outcomes of the top-performer report are the
distinct literal lines for an empty roster and for a roster without any
grade, and both differ from every successful output line. -/
theorem C10_top_performer_outcomes :
    find_top_performer [] = strCodes "No students available." ∧
    (∀ r : List Student, r ≠ [] → (∀ s ∈ r, s.grades = []) →
      find_top_performer r = strCodes "No grades available") ∧
    (∀ r : List Student, (∃ s ∈ r, s.grades ≠ []) →
      find_top_performer r ≠ strCodes "No students available." ∧
      find_top_performer r ≠ strCodes "No grades available") ∧
    strCodes "No students available." ≠ strCodes "No grades available" := by
  refine ⟨by decide, fun r hne hall => ?_, fun r hex => ?_, by decide⟩
  · have hf : r.filter (fun s => !s.grades.isEmpty) = [] := by
      rw [List.filter_eq_nil_iff]
      intro s hs
      simp [hall s hs]
    rw [find_top_performer, if_neg (by simp [hne]), hf]
  · obtain ⟨s, hs, hgr⟩ := hex
    have hne : r.isEmpty = false := by
      cases r with
      | nil => cases hs
      | cons a t => rfl
    have hmem : s ∈ r.filter (fun t => !t.grades.isEmpty) := by
      rw [List.mem_filter]
      exact ⟨hs, by simp [hgr]⟩
    cases hf : r.filter (fun t => !t.grades.isEmpty) with
    | nil => rw [hf] at hmem; cases hmem
    | cons x xs =>
      obtain ⟨u, hu⟩ := find_top_performer_success_head x xs r hne hf
      rw [hu]
      constructor
      · intro hcontra
        rw [show strCodes "No students available." =
            78 :: strCodes "o students available." from by decide] at hcontra
        exact absurd hcontra (by simp)
      · intro hcontra
        rw [show strCodes "No grades available" =
            78 :: strCodes "o grades available" from by decide] at hcontra
        exact absurd hcontra (by simp)

/-- Witness for C10 at an empty roster, a one-student roster without
grades, and a one-student roster with a grade. -/
theorem C10_top_performer_outcomes_witness :
    find_top_performer [] = strCodes "No students available." ∧
    find_top_performer [{ name := strCodes "Ann", grades := [] }] =
      strCodes "No grades available" ∧
    find_top_performer [{ name := strCodes "Ann", grades := [90] }] ≠
      strCodes "No students available." ∧
    find_top_performer [{ name := strCodes "Ann", grades := [90] }] ≠
      strCodes "No grades available" :=
  ⟨C10_top_performer_outcomes.1,
   C10_top_performer_outcomes.2.1 [{ name := strCodes "Ann", grades := [] }]
     (by decide) (by decide),
   (C10_top_performer_outcomes.2.2.1 [{ name := strCodes "Ann", grades := [90] }]
     ⟨{ name := strCodes "Ann", grades := [90] }, by decide, by decide⟩).1,
   (C10_top_performer_outcomes.2.2.1 [{ name := strCodes "Ann", grades := [90] }]
     ⟨{ name := strCodes "Ann", grades := [90] }, by decide, by decide⟩).2⟩

/-- Two codepoints with the same lowercasing are alphabetic together. -/
theorem isAlphaC_congr (a b : Nat) (h : toLowerC a = toLowerC b) :
    isAlphaC a = isAlphaC b := by
  unfold toLowerC isUpperC at h
  unfold isAlphaC
  apply decide_eq_decide.mpr
  split_ifs at h <;> simp only [decide_eq_true_eq, decide_eq_false_iff_not] at * <;> omega

/-- Two codepoints with the same lowercasing have the same uppercasing. -/
theorem toUpperC_congr (a b : Nat) (h : toLowerC a = toLowerC b) :
    toUpperC a = toUpperC b := by
  unfold toLowerC isUpperC at h
  unfold toUpperC isLowerC
  split_ifs at * <;> simp only [decide_eq_true_eq, decide_eq_false_iff_not] at * <;> omega

/-- Lowercasing merges only letters: equal lowercasings of a non-letter
force equality. -/
theorem eq_of_toLowerC_eq_of_not_alpha (a b : Nat) (h : toLowerC a = toLowerC b)
    (ha : isAlphaC a = false) : a = b := by
  unfold toLowerC isUpperC at h
  unfold isAlphaC at ha
  split_ifs at h <;> simp only [decide_eq_true_eq, decide_eq_false_iff_not] at * <;> omega

/-- The title-casing pass depends on its input only through lowercasing. -/
theorem titleAux_congr : ∀ (u v : List Nat) (flag : Bool),
    u.map toLowerC = v.map toLowerC → titleAux flag u = titleAux flag v := by
  intro u
  induction u with
  | nil =>
    intro v flag h
    cases v with
    | nil => rfl
    | cons d ds => simp at h
  | cons c cs ih =>
    intro v flag h
    cases v with
    | nil => simp at h
    | cons d ds =>
      simp only [List.map_cons, List.cons.injEq] at h
      obtain ⟨hc, hcs⟩ := h
      have halpha := isAlphaC_congr c d hc
      show (if isAlphaC c then (if flag then toLowerC c else toUpperC c) else c)
            :: titleAux (isAlphaC c) cs =
          (if isAlphaC d then (if flag then toLowerC d else toUpperC d) else d)
            :: titleAux (isAlphaC d) ds
      rw [← halpha]
      by_cases ha : isAlphaC c = true
      · rw [if_pos ha, if_pos ha, ih ds (isAlphaC c) hcs]
        cases flag <;> simp [hc, toUpperC_congr c d hc]
      · rw [if_neg ha, if_neg ha]
        rw [ih ds (isAlphaC c) hcs,
          eq_of_toLowerC_eq_of_not_alpha c d hc (by simpa using ha)]

/-- Lowercasing commutes with joining words by single spaces. -/
theorem map_toLowerC_joinSp : ∀ ws : List (List Nat),
    (joinSp ws).map toLowerC = joinSp (ws.map (List.map toLowerC)) := by
  intro ws
  induction ws with
  | nil => rfl
  | cons w ws ih =>
    cases ws with
    | nil => rfl
    | cons w2 ws2 =>
      show (w ++ 32 :: joinSp (w2 :: ws2)).map toLowerC =
          w.map toLowerC ++ 32 :: joinSp ((w2 :: ws2).map (List.map toLowerC))
      rw [List.map_append, List.map_cons, ih,
        show toLowerC 32 = 32 from by decide]

/-- Normalization depends only on the split words up to letter case. -/
theorem normalizeName_congr (s t : List Nat)
    (h : (pySplit s).map (List.map toLowerC) = (pySplit t).map (List.map toLowerC)) :
    normalizeName s = normalizeName t := by
  unfold normalizeName pyTitle
  apply titleAux_congr
  rw [map_toLowerC_joinSp, map_toLowerC_joinSp, h]

/-- C4: any two accepted raw name inputs that differ only by whitespace
runs, edge whitespace or letter case (same split words up to lowercasing)
are stored as the identical normalized name. -/
theorem C4_name_normalization_invariance :
    ∀ (s t n m : List Nat), check_input s = some n → check_input t = some m →
      (pySplit s).map (List.map toLowerC) = (pySplit t).map (List.map toLowerC) →
      n = m := by
  intro s t n m hs ht h
  have hnorm := normalizeName_congr s t h
  simp only [check_input] at hs ht
  split_ifs at hs ht
  rw [Option.some_inj] at hs ht
  rw [← hs, ← ht, hnorm]

/-- Witness for C4 at two whitespace/case variants of the same name. -/
theorem C4_name_normalization_invariance_witness :
    check_input (strCodes "aNN  sMith") = some (strCodes "Ann Smith") ∧
    check_input (strCodes "  Ann SMITH ") = some (strCodes "Ann Smith") ∧
    strCodes "Ann Smith" = strCodes "Ann Smith" :=
  ⟨by decide, by decide,
   C4_name_normalization_invariance (strCodes "aNN  sMith") (strCodes "  Ann SMITH ")
     (strCodes "Ann Smith") (strCodes "Ann Smith") (by decide) (by decide) (by decide)⟩

/-- Helper: `find_student` succeeds exactly when a record with the name
is present. -/
theorem find_student_isSome_iff (roster : List Student) (name : List Nat) :
    (find_student roster name).isSome = true ↔ ∃ s ∈ roster, s.name = name := by
  unfold find_student
  rw [List.find?_isSome]
  simp

/-- C5: adding a name already present (after normalization) signals a
duplicate and leaves the roster unchanged; adding a fresh name appends a
record with no grades at the end; two consecutive adds of two raw
variants of the same fresh name leave exactly one record with that name. -/
theorem C5_add_student_duplicate :
    ∀ (roster : List Student) (raw raw2 name : List Nat),
      check_input raw = some name →
      ((∃ s ∈ roster, s.name = name) →
        add_student_step roster raw = (.duplicateName, roster)) ∧
      ((∀ s ∈ roster, s.name ≠ name) →
        add_student_step roster raw =
          (.added, roster ++ [Student.mk name []])) ∧
      (check_input raw2 = some name → (∀ s ∈ roster, s.name ≠ name) →
        add_student_step (roster ++ [Student.mk name []]) raw2 =
          (.duplicateName, roster ++ [Student.mk name []]) ∧
        ((roster ++ [Student.mk name []]).filter
            (fun s : Student => decide (s.name = name))).length = 1) := by
  intro roster raw raw2 name hraw
  refine ⟨fun hdup => ?_, fun hfresh => ?_, fun hraw2 hfresh => ⟨?_, ?_⟩⟩
  · simp only [add_student_step, hraw]
    rw [if_pos ((find_student_isSome_iff roster name).mpr hdup)]
  · simp only [add_student_step, hraw]
    rw [if_neg]
    intro hcontra
    obtain ⟨s, hsmem, hsname⟩ := (find_student_isSome_iff roster name).mp hcontra
    exact hfresh s hsmem hsname
  · simp only [add_student_step, hraw2]
    rw [if_pos ((find_student_isSome_iff (roster ++ [Student.mk name []])
      name).mpr ⟨Student.mk name [], by simp, rfl⟩)]
  · have h1 : roster.filter (fun s : Student => decide (s.name = name)) = [] :=
      List.filter_eq_nil_iff.mpr (fun s hs => by simpa using hfresh s hs)
    rw [List.filter_append, h1]
    simp

/-- Witness for C5: adding "ann" to the empty roster, then " ANN " to the
result. -/
theorem C5_add_student_duplicate_witness :
    add_student_step [] (strCodes "ann") =
      (AddOutcome.added, [Student.mk (strCodes "Ann") []]) ∧
    add_student_step [Student.mk (strCodes "Ann") []] (strCodes " ANN ") =
      (AddOutcome.duplicateName, [Student.mk (strCodes "Ann") []]) ∧
    (([Student.mk (strCodes "Ann") []] : List Student).filter
        (fun s : Student => decide (s.name = strCodes "Ann"))).length = 1 :=
  ⟨(C5_add_student_duplicate [] (strCodes "ann") (strCodes " ANN ")
      (strCodes "Ann") (by decide)).2.1 (by simp),
   ((C5_add_student_duplicate [] (strCodes "ann") (strCodes " ANN ")
      (strCodes "Ann") (by decide)).2.2 (by decide) (by simp)).1,
   ((C5_add_student_duplicate [] (strCodes "ann") (strCodes " ANN ")
      (strCodes "Ann") (by decide)).2.2 (by decide) (by simp)).2⟩

/-- Helper: a grade accepted by the validator lies in the range. -/
theorem valid_input_value_bounds (s : List Nat) (v : Int)
    (h : valid_input s = .value v) : 0 ≤ v ∧ v ≤ 100 := by
  unfold valid_input at h
  split_ifs at h
  cases hp : pyInt s with
  | none =>
    simp only [hp] at h
    cases h
  | some w =>
    simp only [hp] at h
    split_ifs at h with hr
    cases h
    exact hr

/-- Helper: grade processing preserves the grade range. -/
theorem processGrades_bounds (inputs : List (List Nat)) :
    ∀ gs : List Int, (∀ g ∈ gs, 0 ≤ g ∧ g ≤ 100) →
      ∀ g ∈ processGrades gs inputs, 0 ≤ g ∧ g ≤ 100 := by
  induction inputs with
  | nil => intro gs h; simpa [processGrades] using h
  | cons i rest ih =>
    intro gs h
    cases hv : valid_input i with
    | done => simpa [processGrades, hv] using h
    | value v =>
      have hb := valid_input_value_bounds i v hv
      simp only [processGrades, hv]
      refine ih (gs ++ [v]) ?_
      intro g hg
      rcases List.mem_append.mp hg with h1 | h2
      · exact h g h1
      · simp only [List.mem_singleton] at h2
        subst h2
        exact hb
    | invalid =>
      simp only [processGrades, hv]
      exact ih gs h

/-- Helper: appending validated grades to one record preserves the
invariant. -/
theorem addGradesTo_bounds (name : List Nat) (inputs : List (List Nat)) :
    ∀ roster : List Student, GradesOK roster →
      GradesOK (addGradesTo roster name inputs) := by
  intro roster
  induction roster with
  | nil => intro h; simpa [addGradesTo] using h
  | cons s rest ih =>
    intro h
    have hs : ∀ g ∈ s.grades, 0 ≤ g ∧ g ≤ 100 := h s (by simp)
    have hrest : GradesOK rest := fun t ht => h t (by simp [ht])
    by_cases hn : s.name = name
    · rw [show addGradesTo (s :: rest) name inputs =
          ({ s with grades := processGrades s.grades inputs } :: rest) from by
        simp [addGradesTo, hn]]
      intro t ht
      rcases List.mem_cons.mp ht with h1 | h2
      · subst h1
        exact processGrades_bounds inputs s.grades hs
      · exact hrest t h2
    · rw [show addGradesTo (s :: rest) name inputs =
          (s :: addGradesTo rest name inputs) from by simp [addGradesTo, hn]]
      intro t ht
      rcases List.mem_cons.mp ht with h1 | h2
      · subst h1
        exact hs
      · exact ih hrest t h2

/-- Helper: one `add_student` attempt returns the roster unchanged or with
one gradeless record appended. -/
theorem add_student_step_snd (roster : List Student) (raw : List Nat) :
    (add_student_step roster raw).2 = roster ∨
    ∃ n, (add_student_step roster raw).2 =
      roster ++ [{ name := n, grades := [] }] := by
  unfold add_student_step
  cases check_input raw with
  | none => left; rfl
  | some n =>
    by_cases hf : (find_student roster n).isSome = true
    · left; simp [hf]
    · right; exact ⟨n, by simp [hf]⟩

/-- Helper: the `add_student` loop preserves the invariant. -/
theorem add_student_bounds (raws : List (List Nat)) :
    ∀ roster : List Student, GradesOK roster →
      GradesOK (add_student roster raws) := by
  induction raws with
  | nil => intro roster h; simpa [add_student] using h
  | cons raw rest ih =>
    intro roster h
    simp only [add_student]
    cases hstep : add_student_step roster raw with
    | mk outcome r2 =>
      have hsnd := add_student_step_snd roster raw
      rw [hstep] at hsnd
      cases outcome with
      | added =>
        rcases hsnd with h1 | ⟨n, h2⟩
        · simp only at h1
          subst h1
          exact h
        · simp only at h2
          subst h2
          intro t ht
          rcases List.mem_append.mp ht with hm | hm
          · exact h t hm
          · simp only [List.mem_singleton] at hm
            subst hm
            intro g hg
            cases hg
      | invalidName => exact ih roster h
      | duplicateName => exact ih roster h

/-- Helper: the `add_grades` session preserves the invariant. -/
theorem add_grades_bounds (grades : List (List Nat)) :
    ∀ (names : List (List Nat)) (roster : List Student), GradesOK roster →
      GradesOK (add_grades roster names grades) := by
  intro names
  induction names with
  | nil => intro roster h; simpa [add_grades] using h
  | cons raw rest ih =>
    intro roster h
    cases hci : check_input raw with
    | none =>
      simp only [add_grades, hci]
      exact ih roster h
    | some n =>
      by_cases hf : (find_student roster n).isSome = true
      · simp only [add_grades, hci, hf, if_true]
        exact addGradesTo_bounds n grades roster h
      · simp only [add_grades, hci]
        rw [if_neg hf]
        exact h

/-- C7: in every roster reachable from the empty initial roster by the
program operations, every grade of every record lies in [0, 100]; the two
write operations and the two reporting operations preserve this. -/
theorem C7_grade_range_invariant :
    ∀ roster : List Student, Reachable roster → GradesOK roster := by
  intro roster h
  induction h with
  | init => intro s hs; cases hs
  | step op hr ih =>
    cases op with
    | addStudentOp raws => exact add_student_bounds raws _ ih
    | addGradesOp ns gs => exact add_grades_bounds gs ns _ ih
    | showReportOp => exact ih
    | topPerformerOp => exact ih

/-- Witness for C7: the roster reached by adding the student "Ann" and
then the grade 90 satisfies the invariant. -/
theorem C7_grade_range_invariant_witness :
    GradesOK (applyOp (applyOp [] (Op.addStudentOp [strCodes "Ann"]))
      (Op.addGradesOp [strCodes "Ann"] [strCodes "90", strCodes "done"])) ∧
    applyOp (applyOp [] (Op.addStudentOp [strCodes "Ann"]))
      (Op.addGradesOp [strCodes "Ann"] [strCodes "90", strCodes "done"]) =
      [{ name := strCodes "Ann", grades := [90] }] :=
  ⟨C7_grade_range_invariant _
    (Reachable.step _ (Reachable.step _ Reachable.init)),
   by decide⟩

/-- Helper: the Python `max` scan returns the first element attaining the
maximum key: every earlier element is strictly below it, every later
element is at most it. -/
theorem pyMax1_split (key : Student → ℚ) :
    ∀ (xs : List Student) (x : Student),
      ∃ l1 l2, x :: xs = l1 ++ pyMax1 key x xs :: l2 ∧
        (∀ z ∈ l1, key z < key (pyMax1 key x xs)) ∧
        (∀ z ∈ l2, key z ≤ key (pyMax1 key x xs)) := by
  intro xs
  induction xs with
  | nil => exact fun x => ⟨[], [], rfl, by simp, by simp⟩
  | cons y ys ih =>
    intro x
    by_cases h : key x < key y
    · have hunf : pyMax1 key x (y :: ys) = pyMax1 key y ys := by
        show pyMax1 key (if key x < key y then y else x) ys = _
        rw [if_pos h]
      rw [hunf]
      obtain ⟨l1, l2, he, h1, h2⟩ := ih y
      have hym : key y ≤ key (pyMax1 key y ys) := by
        have hmem : y ∈ l1 ++ pyMax1 key y ys :: l2 := by
          rw [← he]
          exact List.mem_cons_self y ys
        rcases List.mem_append.mp hmem with hm | hm
        · exact le_of_lt (h1 y hm)
        · rcases List.mem_cons.mp hm with hm2 | hm2
          · exact le_of_eq (congrArg key hm2)
          · exact h2 y hm2
      refine ⟨x :: l1, l2, ?_, ?_, h2⟩
      · rw [List.cons_append, ← he]
      · intro z hz
        rcases List.mem_cons.mp hz with hz1 | hz2
        · subst hz1
          exact lt_of_lt_of_le h hym
        · exact h1 z hz2
    · have hunf : pyMax1 key x (y :: ys) = pyMax1 key x ys := by
        show pyMax1 key (if key x < key y then y else x) ys = _
        rw [if_neg h]
      rw [hunf]
      obtain ⟨l1, l2, he, h1, h2⟩ := ih x
      cases l1 with
      | nil =>
        simp only [List.nil_append] at he
        injection he with hx hys
        refine ⟨[], y :: ys, ?_, by simp, ?_⟩
        · rw [List.nil_append, ← hx]
        · intro z hz
          rcases List.mem_cons.mp hz with hz1 | hz2
          · subst hz1
            rw [← hx]
            exact le_of_not_lt h
          · rw [hys] at hz2
            exact h2 z hz2
      | cons a l1s =>
        simp only [List.cons_append] at he
        injection he with hx hys
        have hxlt : key x < key (pyMax1 key x ys) := by
          have hh := h1 a (List.mem_cons_self a l1s)
          rw [← hx] at hh
          exact hh
        refine ⟨x :: y :: l1s, l2, ?_, ?_, h2⟩
        · rw [List.cons_append, List.cons_append, ← hys]
        · intro z hz
          rcases List.mem_cons.mp hz with hz1 | hz2
          · subst hz1
            exact hxlt
          · rcases List.mem_cons.mp hz2 with hz3 | hz4
            · subst hz3
              exact lt_of_le_of_lt (le_of_not_lt h) hxlt
            · exact h1 z (List.mem_cons_of_mem a hz4)

/-- C1: whenever some student has a grade, the top-performer selection
returns the first student, in insertion order among those with at least
one grade, attaining the maximum exact average: every earlier graded
student has a strictly smaller average and every later one is at most it
(so an equal-average tie goes to the first-inserted student). -/
theorem C1_top_performer_stable_max :
    ∀ roster : List Student, (∃ s ∈ roster, s.grades ≠ []) →
      ∃ (top : Student) (l1 l2 : List Student),
        topPerformer roster = some top ∧
        roster.filter (fun s => !s.grades.isEmpty) = l1 ++ top :: l2 ∧
        (∀ z ∈ l1, avgOf z < avgOf top) ∧
        (∀ z ∈ l2, avgOf z ≤ avgOf top) := by
  intro roster hex
  obtain ⟨s, hs, hgr⟩ := hex
  have hne : roster.isEmpty = false := by
    cases roster with
    | nil => cases hs
    | cons a t => rfl
  have hmem : s ∈ roster.filter (fun t => !t.grades.isEmpty) :=
    List.mem_filter.mpr ⟨hs, by simp [hgr]⟩
  cases hf : roster.filter (fun t => !t.grades.isEmpty) with
  | nil =>
    rw [hf] at hmem
    cases hmem
  | cons x xs =>
    obtain ⟨l1, l2, he, h1, h2⟩ := pyMax1_split avgOf xs x
    refine ⟨pyMax1 avgOf x xs, l1, l2, ?_, ?_, h1, h2⟩
    · rw [topPerformer, if_neg (by simp [hne]), hf]
    · exact he

/-- Witness for C1: the equal-average tie `[("Ann",[90,100]),
("Bo",[95,95])]`, both averaging 95, resolved to the first-inserted
"Ann". -/
theorem C1_top_performer_stable_max_witness :
    (∃ (top : Student) (l1 l2 : List Student),
      topPerformer [Student.mk (strCodes "Ann") [90, 100],
                    Student.mk (strCodes "Bo") [95, 95]] = some top ∧
      [Student.mk (strCodes "Ann") [90, 100],
       Student.mk (strCodes "Bo") [95, 95]].filter (fun s => !s.grades.isEmpty) =
        l1 ++ top :: l2 ∧
      (∀ z ∈ l1, avgOf z < avgOf top) ∧
      (∀ z ∈ l2, avgOf z ≤ avgOf top)) ∧
    topPerformer [Student.mk (strCodes "Ann") [90, 100],
                  Student.mk (strCodes "Bo") [95, 95]] =
      some (Student.mk (strCodes "Ann") [90, 100]) :=
  ⟨C1_top_performer_stable_max
      [Student.mk (strCodes "Ann") [90, 100], Student.mk (strCodes "Bo") [95, 95]]
      ⟨Student.mk (strCodes "Ann") [90, 100], by simp, by simp⟩,
   by norm_num [topPerformer, pyMax1, avgOf, avgQ, List.filter]⟩

/-- Helper: the left fold of `max` lands on one of its inputs. -/
theorem foldl_max_mem : ∀ (l : List ℚ) (a : ℚ), l.foldl max a ∈ a :: l := by
  intro l
  induction l with
  | nil => intro a; simp
  | cons b bs ih =>
    intro a
    show List.foldl max (max a b) bs ∈ a :: b :: bs
    rcases List.mem_cons.mp (ih (max a b)) with h | h
    · rcases max_choice a b with hm | hm
      · rw [h, hm]
        exact List.mem_cons_self a (b :: bs)
      · rw [h, hm]
        exact List.mem_cons_of_mem a (List.mem_cons_self b bs)
    · exact List.mem_cons_of_mem a (List.mem_cons_of_mem b h)

/-- Helper: the left fold of `max` bounds every input from above. -/
theorem le_foldl_max : ∀ (l : List ℚ) (a b : ℚ), b ∈ a :: l → b ≤ l.foldl max a := by
  intro l
  induction l with
  | nil =>
    intro a b hb
    simp at hb
    simp [hb]
  | cons c cs ih =>
    intro a b hb
    show b ≤ List.foldl max (max a c) cs
    rcases List.mem_cons.mp hb with h | h
    · subst h
      exact le_trans (le_max_left b c)
        (ih (max b c) (max b c) (List.mem_cons_self _ cs))
    · rcases List.mem_cons.mp h with h2 | h2
      · subst h2
        exact le_trans (le_max_right a b)
          (ih (max a b) (max a b) (List.mem_cons_self _ cs))
      · exact ih (max a c) b (List.mem_cons_of_mem _ h2)

/-- Helper: the left fold of `min` lands on one of its inputs. -/
theorem foldl_min_mem : ∀ (l : List ℚ) (a : ℚ), l.foldl min a ∈ a :: l := by
  intro l
  induction l with
  | nil => intro a; simp
  | cons b bs ih =>
    intro a
    show List.foldl min (min a b) bs ∈ a :: b :: bs
    rcases List.mem_cons.mp (ih (min a b)) with h | h
    · rcases min_choice a b with hm | hm
      · rw [h, hm]
        exact List.mem_cons_self a (b :: bs)
      · rw [h, hm]
        exact List.mem_cons_of_mem a (List.mem_cons_self b bs)
    · exact List.mem_cons_of_mem a (List.mem_cons_of_mem b h)

/-- Helper: the left fold of `min` bounds every input from below. -/
theorem foldl_min_le : ∀ (l : List ℚ) (a b : ℚ), b ∈ a :: l → l.foldl min a ≤ b := by
  intro l
  induction l with
  | nil =>
    intro a b hb
    simp at hb
    simp [hb]
  | cons c cs ih =>
    intro a b hb
    show List.foldl min (min a c) cs ≤ b
    rcases List.mem_cons.mp hb with h | h
    · subst h
      exact le_trans (ih (min b c) (min b c) (List.mem_cons_self _ cs))
        (min_le_left b c)
    · rcases List.mem_cons.mp h with h2 | h2
      · subst h2
        exact le_trans (ih (min a b) (min a b) (List.mem_cons_self _ cs))
          (min_le_right a b)
      · exact ih (min a c) b (List.mem_cons_of_mem _ h2)

/-- C3: for a non-empty roster the report is the header, one line per
student in insertion order, then either the single no-data line (when no
student has a grade) or the separator and the three aggregate lines: the
maximum and minimum of the rounded per-student averages of the graded
students, and their mean, each rounded to one decimal. -/
theorem C3_show_report_structure :
    ∀ roster : List Student, roster ≠ [] →
      show_report roster =
        strCodes "-----Student Report-----" ::
          (roster.map studentLine ++ summaryLines roster) ∧
      (gradedAverages roster = [] →
        summaryLines roster = [strCodes "No grades available for summary."]) ∧
      (gradedAverages roster ≠ [] →
        ∃ mx mn,
          mx ∈ gradedAverages roster ∧ (∀ b ∈ gradedAverages roster, b ≤ mx) ∧
          mn ∈ gradedAverages roster ∧ (∀ b ∈ gradedAverages roster, mn ≤ b) ∧
          summaryLines roster =
            [strCodes "-------------------------",
             strCodes "Max average: " ++ fmtTenths (round1 mx),
             strCodes "Min average: " ++ fmtTenths (round1 mn),
             strCodes "Overall average: " ++
               fmtTenths (round1 ((gradedAverages roster).sum /
                 ((gradedAverages roster).length : ℚ)))]) := by
  intro roster hne
  have hne2 : roster.isEmpty = false := by
    cases roster with
    | nil => exact absurd rfl hne
    | cons a t => rfl
  refine ⟨?_, fun hga => by simp only [summaryLines, hga], fun hga => ?_⟩
  · rw [show_report, if_neg (by simp [hne2])]
  · cases hga2 : gradedAverages roster with
    | nil => exact absurd hga2 hga
    | cons a rest =>
      refine ⟨rest.foldl max a, rest.foldl min a, ?_, ?_, ?_, ?_, ?_⟩
      · exact foldl_max_mem rest a
      · intro b hb
        exact le_foldl_max rest a b hb
      · exact foldl_min_mem rest a
      · intro b hb
        exact foldl_min_le rest a b hb
      · simp only [summaryLines, hga2]

/-- Witness for C3 at the roster with the graded "Ann" and the gradeless
"Bo". -/
theorem C3_show_report_structure_witness :
    show_report [Student.mk (strCodes "Ann") [90, 100],
                 Student.mk (strCodes "Bo") []] =
      strCodes "-----Student Report-----" ::
        ([Student.mk (strCodes "Ann") [90, 100],
          Student.mk (strCodes "Bo") []].map studentLine ++
          summaryLines [Student.mk (strCodes "Ann") [90, 100],
                        Student.mk (strCodes "Bo") []]) ∧
    summaryLines [Student.mk (strCodes "Ann") [90, 100],
                  Student.mk (strCodes "Bo") []] =
      [strCodes "-------------------------",
       strCodes "Max average: " ++ strCodes "95.0",
       strCodes "Min average: " ++ strCodes "95.0",
       strCodes "Overall average: " ++ strCodes "95.0"] :=
  ⟨(C3_show_report_structure
      [Student.mk (strCodes "Ann") [90, 100], Student.mk (strCodes "Bo") []]
      (by decide)).1,
   by
    norm_num [summaryLines, gradedAverages, avgOf, avgQ, round1, roundHalfEven,
      fmtTenths, List.filter]
    decide⟩

end GradeAnalyzer
